import Mathlib

/-!
Verification of the turn-based RPG session engine: shallow embedding of the
combat system, character system, quest generator and multiplayer session
manager, with theorems checking the specified properties against the code.

Python integers are modelled as Lean integers; Python float literals such as
1.5 or 0.8 are modelled as exact rationals; randomized draws (variance,
criticals, ability choice, stat growth) are passed in as explicit oracle
parameters so that every function is deterministic in its inputs.
-/

/-- Python truncating conversion from a real number to an integer:
truncation toward zero, as performed by the builtin int() applied to a float. -/
def pyInt (q : ℚ) : ℤ := if q < 0 then ⌈q⌉ else ⌊q⌋

/-- A character stats dictionary: the keys created by the character system
(character['stats']), also read by the combat system. -/
structure Stats where
  strength : ℤ
  agility : ℤ
  intelligence : ℤ
  defense : ℤ
  magic_power : ℤ
  max_hp : ℤ
deriving DecidableEq

namespace CombatSystem

/-- Whose turn it is in a solo combat state. -/
inductive Turn where
  | player
  | enemy
deriving DecidableEq

/-- Status of a solo combat state. -/
inductive CombatStatus where
  | ongoing
  | victory
  | defeat
deriving DecidableEq

/-- The player dictionary as consumed by the combat system: the fields the
combat code reads (name, stats, current_hp, max_hp). -/
structure CPlayer where
  name : String
  stats : Stats
  current_hp : ℤ
  max_hp : ℤ
deriving DecidableEq

/-- The enemy dictionary as consumed by the combat system. -/
structure CEnemy where
  name : String
  attack : ℤ
  defense : ℤ
  current_hp : ℤ
  max_hp : ℤ
  special_abilities : List String
deriving DecidableEq

/-- The combat_state dictionary built by initialize_combat and threaded
through every combat operation. -/
structure CombatState where
  player : CPlayer
  enemy : CEnemy
  turn : Turn
  round : ℤ
  status : CombatStatus
  log : List String
  player_defending : Bool
deriving DecidableEq

/-- _calculate_player_damage: strength, with a crit multiplying by 1.5
(truncated) and forcing the variance non-negative; floored at 1.  The
uniform variance in [-3,3] and the crit roll are oracle parameters. -/
def calculate_player_damage (variance : ℤ) (crit : Bool) (p : CPlayer) : ℤ :=
  let base_damage := p.stats.strength
  let base_damage := if crit then pyInt ((base_damage : ℚ) * (3 / 2)) else base_damage
  let v := if crit then |variance| else variance
  max 1 (base_damage + v)

/-- _calculate_enemy_damage: attack plus a uniform variance in [-2,2]
(oracle parameter), floored at 1. -/
def calculate_enemy_damage (variance : ℤ) (e : CEnemy) : ℤ :=
  max 1 (e.attack + variance)

/-- player_attack from combat_system.py: damage is floored at 1 after enemy
defense, enemy HP is clamped at 0, reaching 0 sets victory and returns
early, otherwise the turn flips to the enemy. -/
def player_attack (variance : ℤ) (crit : Bool) (st : CombatState) : CombatState :=
  let base_damage := calculate_player_damage variance crit st.player
  let damage_dealt := max 1 (base_damage - st.enemy.defense)
  let new_hp := max 0 (st.enemy.current_hp - damage_dealt)
  let enemy := { st.enemy with current_hp := new_hp }
  let log := st.log ++
    [st.player.name ++ " attacks " ++ enemy.name ++ " for " ++ toString damage_dealt ++ " damage!"]
  if new_hp ≤ 0 then
    { st with
        enemy := enemy
        status := CombatStatus.victory
        log := log ++ [enemy.name ++ " has been defeated!"] }
  else
    { st with enemy := enemy, log := log, turn := Turn.enemy }

/-- The effect-profile dictionary values of _execute_enemy_special_ability:
an optional damage multiplier, an optional status-effect tag, a hit count
(defaulting to 1 via .get) and a log description. -/
structure AbilityEffect where
  damage_multiplier : Option ℚ
  effect : Option String
  hits : ℕ
  description : String

/-- The ability_effects table of _execute_enemy_special_ability, including
the fallback profile (multiplier 1.2) for unrecognized ability names. -/
def ability_effects (enemyName ability : String) : AbilityEffect :=
  if ability = "Crushing Bite" then
    ⟨some (3 / 2), none, 1, enemyName ++ " delivers a crushing bite!"⟩
  else if ability = "Intimidating Roar" then
    ⟨none, some "stun", 1, enemyName ++ " lets out an intimidating roar!"⟩
  else if ability = "Tusk Charge" then
    ⟨some (13 / 10), none, 1, enemyName ++ " charges with deadly tusks!"⟩
  else if ability = "Pounce" then
    ⟨some (7 / 5), none, 1, enemyName ++ " pounces with feline grace!"⟩
  else if ability = "Saber Strike" then
    ⟨some (8 / 5), none, 1, enemyName ++ " strikes with razor-sharp sabers!"⟩
  else if ability = "Claw Swipe" then
    ⟨some (6 / 5), none, 1, enemyName ++ " swipes with massive claws!"⟩
  else if ability = "Bear Hug" then
    ⟨none, some "grapple", 1, enemyName ++ " attempts to grapple!"⟩
  else if ability = "Heavy Slam" then
    ⟨some (13 / 10), none, 1, enemyName ++ " slams down with tremendous force!"⟩
  else if ability = "Piercing Beak" then
    ⟨some (3 / 2), none, 1, enemyName ++ " strikes with its piercing beak!"⟩
  else if ability = "Swift Strike" then
    ⟨some (11 / 10), none, 2, enemyName ++ " strikes twice in rapid succession!"⟩
  else if ability = "Pack Howl" then
    ⟨none, some "buff", 1, enemyName ++ " howls, boosting its strength!"⟩
  else if ability = "Venomous Bite" then
    ⟨some (6 / 5), some "poison", 1, enemyName ++ " bites with venomous fangs!"⟩
  else if ability = "Tail Whip" then
    ⟨some (11 / 10), none, 1, enemyName ++ " lashes out with its powerful tail!"⟩
  else
    ⟨some (6 / 5), none, 1, enemyName ++ " uses " ++ ability ++ "!"⟩

/-- The per-hit loop of the damage-multiplier branch: each hit deals the
same damage and player HP is clamped at 0 after each hit; returns the
summed total damage and the final HP. -/
def apply_hits : ℕ → ℤ → ℤ → ℤ × ℤ
  | 0, _, hp => (0, hp)
  | n + 1, damage, hp =>
      let rest := apply_hits n damage (max 0 (hp - damage))
      (damage + rest.1, rest.2)

/-- _execute_enemy_special_ability: picks an ability (random.choice is the
oracle index, reduced modulo the list length), looks up its effect profile
and applies it.  The branch structure mirrors the source: the
damage_multiplier branch is checked first, and stun / buff / poison are
elif branches that only run when no damage multiplier is present. -/
def execute_enemy_special_ability (abilityIdx : ℕ) (variance : ℤ)
    (st : CombatState) : CombatState :=
  if st.enemy.special_abilities = [] then st
  else
    let ability :=
      st.enemy.special_abilities.getD (abilityIdx % st.enemy.special_abilities.length) ""
    let eff := ability_effects st.enemy.name ability
    let log := st.log ++ [eff.description]
    match eff.damage_multiplier with
    | some m =>
        let base_damage := calculate_enemy_damage variance st.enemy
        let special_damage := pyInt ((base_damage : ℚ) * m)
        let damage := max 1 (special_damage - st.player.stats.defense)
        let res := apply_hits eff.hits damage st.player.current_hp
        { st with
            player := { st.player with current_hp := res.2 }
            log := log ++
              [st.player.name ++ " takes " ++ toString res.1 ++ " damage from " ++ ability ++ "!"] }
    | none =>
        if eff.effect = some "stun" then
          { st with log := log ++ [st.player.name ++ " is intimidated and loses next turn!"] }
        else if eff.effect = some "buff" then
          { st with
              enemy := { st.enemy with attack := pyInt ((st.enemy.attack : ℚ) * (11 / 10)) }
              log := log ++ [st.enemy.name ++ "\x27s attack power increases!"] }
        else if eff.effect = some "poison" then
          { st with
              player := { st.player with current_hp := max 0 (st.player.current_hp - 5) }
              log := log ++ ["Poison deals 5 additional damage!"] }
        else
          { st with log := log }

/-- The enemy AI action chosen by _determine_enemy_action (a randomized
choice, passed in as an oracle). -/
inductive EnemyAction where
  | attack
  | special
deriving DecidableEq

/-- enemy_turn from combat_system.py.  In the attack branch a defending
player halves the damage (integer division) and clears the flag, damage is
floored at 1 after player defense, HP is clamped at 0, and reaching 0 sets
defeat and returns early.  In the special branch the special ability is
executed and control falls through to the turn switch with no defeat
check. -/
def enemy_turn (action : EnemyAction) (variance : ℤ) (abilityIdx : ℕ)
    (st : CombatState) : CombatState :=
  match action with
  | EnemyAction.attack =>
      let damage0 := calculate_enemy_damage variance st.enemy
      let damage := if st.player_defending then max 1 (damage0 / 2) else damage0
      let log1 :=
        if st.player_defending then
          st.log ++ [st.player.name ++ "\x27s defense reduces incoming damage!"]
        else st.log
      let defending := if st.player_defending then false else st.player_defending
      let final_damage := max 1 (damage - st.player.stats.defense)
      let new_hp := max 0 (st.player.current_hp - final_damage)
      let log2 := log1 ++
        [st.enemy.name ++ " attacks " ++ st.player.name ++ " for " ++ toString final_damage ++ " damage!"]
      if new_hp ≤ 0 then
        { st with
            player := { st.player with current_hp := new_hp }
            player_defending := defending
            status := CombatStatus.defeat
            log := log2 ++ [st.player.name ++ " has been defeated!"] }
      else
        { st with
            player := { st.player with current_hp := new_hp }
            player_defending := defending
            log := log2
            turn := Turn.player
            round := st.round + 1 }
  | EnemyAction.special =>
      let st2 := execute_enemy_special_ability abilityIdx variance st
      { st2 with turn := Turn.player, round := st2.round + 1 }

end CombatSystem

namespace CharacterSystem

/-- The character dictionary created by create_character.  The inventory
category lists are not consulted by the leveling code modelled here and are
omitted. -/
structure Character where
  name : String
  className : String
  level : ℤ
  experience : ℤ
  experience_to_next : ℤ
  gold : ℤ
  stats : Stats
  current_hp : ℤ
  max_hp : ℤ
  abilities : List String
  quests_completed : ℤ
  monsters_defeated : ℤ
deriving DecidableEq

/-- The per-stat growth dictionary returned by _calculate_stat_growth: one
randomized increment per stat except max_hp (HP is handled separately).
The random draws behind it are oracle inputs of level_up. -/
structure StatGrowth where
  strength : ℤ
  agility : ℤ
  intelligence : ℤ
  defense : ℤ
  magic_power : ℤ
deriving DecidableEq

/-- level_up from character_system.py: increments level, resets experience,
sets experience_to_next to the new level times 100, adds the stat growth,
adds a random hp_increase (drawn from randint(8, 15), an oracle parameter
here) to stats.max_hp, mirrors it into max_hp and restores current_hp. -/
def level_up (growth : StatGrowth) (hp_increase : ℤ) (c : Character) : Character :=
  let level := c.level + 1
  let stats : Stats :=
    { strength := c.stats.strength + growth.strength
      agility := c.stats.agility + growth.agility
      intelligence := c.stats.intelligence + growth.intelligence
      defense := c.stats.defense + growth.defense
      magic_power := c.stats.magic_power + growth.magic_power
      max_hp := c.stats.max_hp + hp_increase }
  { c with
      level := level
      experience := 0
      experience_to_next := level * 100
      stats := stats
      max_hp := stats.max_hp
      current_hp := stats.max_hp }

end CharacterSystem

namespace QuestSystem

/-- The reward dictionary built by _calculate_rewards. -/
structure Rewards where
  gold : ℤ
  experience : ℤ
  items : List String
deriving DecidableEq

/-- The difficulty_multipliers dictionary of _calculate_rewards, read with
.get(difficulty, 1.0). -/
def difficulty_multipliers (difficulty : String) : ℚ :=
  if difficulty = "easy" then 4 / 5
  else if difficulty = "medium" then 1
  else if difficulty = "hard" then 13 / 10
  else if difficulty = "legendary" then 8 / 5
  else 1

/-- _calculate_rewards from quest_system.py.  The function reads only
player['level'] and creature['difficulty']; the 30%-probability item drop
is randomized, so the roll and the drawn items are oracle parameters. -/
def calculate_rewards (level : ℤ) (difficulty : String) (difficulty_modifier : ℚ)
    (itemRoll : Bool) (rolledItems : List String) : Rewards :=
  let base_gold := 50 + level * 25
  let base_exp := 40 + level * 20
  let multiplier := difficulty_multipliers difficulty * difficulty_modifier
  { gold := pyInt ((base_gold : ℚ) * multiplier)
    experience := pyInt ((base_exp : ℚ) * multiplier)
    items := if itemRoll then rolledItems else [] }

/-- The reward-gold formula exactly as the specification words it:
int((50 + level*25) * m). -/
def specRewardGold (level : ℤ) (m : ℚ) : ℤ := pyInt (((50 + level * 25 : ℤ) : ℚ) * m)

/-- The reward-experience formula exactly as the specification words it:
int((40 + level*20) * m). -/
def specRewardExp (level : ℤ) (m : ℚ) : ℤ := pyInt (((40 + level * 20 : ℤ) : ℚ) * m)

/-- The difficulty multiplier table exactly as the specification words it:
easy 0.8, medium 1.0, hard 1.3, legendary 1.6. -/
def specDifficultyMultiplier (difficulty : String) : ℚ :=
  if difficulty = "easy" then 4 / 5
  else if difficulty = "medium" then 1
  else if difficulty = "hard" then 13 / 10
  else 8 / 5

/-! Creature instantiation.  Python dicts are mutable heap objects and
dict.copy() is a shallow copy, so the special_abilities list of a copied
creature is the same list object as the template's.  The heap of ability
lists is made explicit: an AbilityStore holds the list objects and a
creature record holds a reference (an index) into it. -/

/-- The heap of special_abilities list objects. -/
abbrev AbilityStore := List (List String)

/-- A creature record (bestiary template or scaled encounter instance).
special_abilities is a reference into the AbilityStore.  max_hp and
current_hp are absent from the bestiary templates and added when a
creature is instantiated, hence Option. -/
structure Creature where
  name : String
  difficulty : String
  hp : ℤ
  attack : ℤ
  defense : ℤ
  special_abilities : ℕ
  max_hp : Option ℤ
  current_hp : Option ℤ
deriving DecidableEq

/-- Appending a string to the list object at reference r (Python
list.append on the referenced list). -/
def storeAppend (store : AbilityStore) (r : ℕ) (s : String) : AbilityStore :=
  store.set r ((store.getD r []) ++ [s])

/-- _select_creature_for_player from quest_system.py, for one chosen
template (the random.choice over the level-suitable pool is the oracle
choice of the template argument).  creature.copy() is a shallow copy: the
scalar fields are rebound in the copy, the special_abilities reference is
shared with the template, and the store is untouched. -/
def select_creature_for_player (template : Creature) (level : ℤ) : Creature :=
  let level_modifier : ℚ := 1 + (level - 1) * (1 / 10)
  let hp := pyInt ((template.hp : ℚ) * level_modifier)
  { template with
      hp := hp
      attack := pyInt ((template.attack : ℚ) * level_modifier)
      defense := pyInt ((template.defense : ℚ) * level_modifier)
      max_hp := some hp
      current_hp := some hp }

end QuestSystem

namespace MultiplayerSystem

/-- _scale_creature_for_multiplayer from multiplayer_system.py: scales the
scalar fields of the passed creature and, at 3 or more players, appends
"Area Attack" (and at 4 or more also "Regeneration") to the creature's
special_abilities list object in the store. -/
def scale_creature_for_multiplayer (store : QuestSystem.AbilityStore)
    (creature : QuestSystem.Creature) (num_players : ℤ) (difficulty_modifier : ℚ) :
    QuestSystem.Creature × QuestSystem.AbilityStore :=
  let player_scaling : ℚ := 1 + (num_players - 1) * (2 / 5)
  let total_modifier := player_scaling * difficulty_modifier
  let hp := pyInt ((creature.hp : ℚ) * total_modifier)
  let c2 : QuestSystem.Creature :=
    { creature with
        hp := hp
        max_hp := some hp
        current_hp := some hp
        attack := pyInt ((creature.attack : ℚ) * (total_modifier * (4 / 5)))
        defense := pyInt ((creature.defense : ℚ) * (total_modifier * (3 / 5))) }
  let store2 :=
    if num_players ≥ 3 then QuestSystem.storeAppend store c2.special_abilities "Area Attack"
    else store
  let store3 :=
    if num_players ≥ 4 then QuestSystem.storeAppend store2 c2.special_abilities "Regeneration"
    else store2
  (c2, store3)

/-- A roster entry.  The session-lifecycle operations modelled here consult
only the player dictionary's name field; the other character fields are
never read by them and are omitted. -/
structure MPlayer where
  name : String
deriving DecidableEq

/-- GameSession status values. -/
inductive SessionStatus where
  | waiting
  | in_progress
  | completed
deriving DecidableEq

/-- The GameSession dataclass.  current_quest and shared_story_context are
not consulted by the lifecycle operations modelled here and are omitted. -/
structure GameSession where
  session_id : String
  host_player : String
  players : List MPlayer
  max_players : ℤ
  status : SessionStatus
  created_at : ℚ
deriving DecidableEq

/-! Python dicts with string keys, modelled as association lists with
unique keys: alookup finds the value for a key, ainsert assigns a key
(overwriting in place when the key is present, appending otherwise, as
dict assignment preserves insertion order), aerase deletes a key. -/

/-- Dict lookup: d[k] / k in d. -/
def alookup {α : Type} (k : String) : List (String × α) → Option α
  | [] => none
  | p :: l => if p.1 = k then some p.2 else alookup k l

/-- Dict assignment d[k] = v. -/
def ainsert {α : Type} (k : String) (v : α) (l : List (String × α)) : List (String × α) :=
  if (alookup k l).isSome then l.map (fun p => if p.1 = k then (k, v) else p)
  else l ++ [(k, v)]

/-- Dict deletion del d[k] (no-op when the key is absent). -/
def aerase {α : Type} (k : String) : List (String × α) → List (String × α)
  | [] => []
  | p :: l => if p.1 = k then aerase k l else p :: aerase k l

/-- The keys of a dict. -/
def akeys {α : Type} (l : List (String × α)) : List String := l.map Prod.fst

/-- The MultiplayerSystem state: active_sessions maps session ids to
sessions, player_sessions maps player names to session ids. -/
structure MPState where
  active_sessions : List (String × GameSession)
  player_sessions : List (String × String)
deriving DecidableEq

/-- The state built by __init__: both dicts empty. -/
def emptySystem : MPState := { active_sessions := [], player_sessions := [] }

/-- create_session from multiplayer_system.py.  The generated uuid-based
short session id and time.time() are oracle parameters.  There is no
validation of max_players and no check that the host is free: the session
is always created and both dicts are assigned. -/
def create_session (sys : MPState) (host : MPlayer) (max_players : ℤ)
    (sid : String) (now : ℚ) : String × MPState :=
  let session : GameSession :=
    { session_id := sid
      host_player := host.name
      players := [host]
      max_players := max_players
      status := SessionStatus.waiting
      created_at := now }
  (sid,
   { active_sessions := ainsert sid session sys.active_sessions
     player_sessions := ainsert host.name sid sys.player_sessions })

/-- join_session from multiplayer_system.py: fails on unknown id, full
roster (length ≥ max_players), status different from waiting, or a player
name already present in player_sessions; otherwise appends the player to
the roster and records the mapping. -/
def join_session (sys : MPState) (sid : String) (p : MPlayer) : Bool × MPState :=
  match alookup sid sys.active_sessions with
  | none => (false, sys)
  | some session =>
      if (session.players.length : ℤ) ≥ session.max_players then (false, sys)
      else if session.status ≠ SessionStatus.waiting then (false, sys)
      else if (alookup p.name sys.player_sessions).isSome then (false, sys)
      else
        (true,
         { active_sessions :=
             ainsert sid { session with players := session.players ++ [p] } sys.active_sessions
           player_sessions := ainsert p.name sid sys.player_sessions })

/-- leave_session from multiplayer_system.py.  Looking up a mapped session
id that is missing from active_sessions raises KeyError in the source;
that crash is modelled as none. -/
def leave_session (sys : MPState) (player_name : String) : Option (Bool × MPState) :=
  match alookup player_name sys.player_sessions with
  | none => some (false, sys)
  | some sid =>
      match alookup sid sys.active_sessions with
      | none => none
      | some session =>
          let players2 := session.players.filter (fun p => p.name ≠ player_name)
          let index2 := aerase player_name sys.player_sessions
          if session.host_player = player_name then
            if players2 ≠ [] then
              let session2 :=
                { session with players := players2, host_player := (players2.headD ⟨""⟩).name }
              some (true,
                { active_sessions := ainsert sid session2 sys.active_sessions
                  player_sessions := index2 })
            else
              some (true,
                { active_sessions := aerase sid sys.active_sessions
                  player_sessions := index2 })
          else
            if players2 = [] then
              some (true,
                { active_sessions := aerase sid sys.active_sessions
                  player_sessions := index2 })
            else
              some (true,
                { active_sessions :=
                    ainsert sid { session with players := players2 } sys.active_sessions
                  player_sessions := index2 })

/-- start_session from multiplayer_system.py: requires a known id, waiting
status and at least 2 players; transitions the session to in_progress. -/
def start_session (sys : MPState) (sid : String) : Bool × MPState :=
  match alookup sid sys.active_sessions with
  | none => (false, sys)
  | some session =>
      if session.status ≠ SessionStatus.waiting then (false, sys)
      else if (session.players.length : ℤ) < 2 then (false, sys)
      else
        (true,
         { sys with
             active_sessions :=
               ainsert sid { session with status := SessionStatus.in_progress }
                 sys.active_sessions })

/-- One iteration of the deletion loop of cleanup_expired_sessions: deletes
the mappings of the session's roster players (guarded by membership, so an
absent mapping is skipped) and then the session itself.  A missing session
id raises KeyError in the source, modelled as none. -/
def remove_expired (sys : MPState) (sid : String) : Option MPState :=
  match alookup sid sys.active_sessions with
  | none => none
  | some session =>
      some
        { active_sessions := aerase sid sys.active_sessions
          player_sessions :=
            session.players.foldl (fun ix p => aerase p.name ix) sys.player_sessions }

/-- The deletion loop of cleanup_expired_sessions over the collected
expired ids. -/
def remove_all (sys : MPState) : List String → Option MPState
  | [] => some sys
  | sid :: rest =>
      match remove_expired sys sid with
      | none => none
      | some sys2 => remove_all sys2 rest

/-- cleanup_expired_sessions from multiplayer_system.py: collects the ids
of sessions older than max_age_hours (current time is an oracle
parameter), deletes them and their player mappings, and returns the count
removed. -/
def cleanup_expired_sessions (sys : MPState) (max_age_hours : ℤ) (now : ℚ) :
    Option (ℤ × MPState) :=
  let expired :=
    (sys.active_sessions.filter
      (fun p => now - p.2.created_at > ((max_age_hours * 3600 : ℤ) : ℚ))).map Prod.fst
  (remove_all sys expired).map (fun sys2 => ((expired.length : ℤ), sys2))

/-- One call against the Multiplayer Session Manager, with all randomized
or environment-supplied values (session id, clock readings) as explicit
oracle fields. -/
inductive MPOp where
  | create (host : MPlayer) (max_players : ℤ) (sid : String) (now : ℚ)
  | join (sid : String) (p : MPlayer)
  | leave (player_name : String)
  | start (sid : String)
  | cleanup (max_age_hours : ℤ) (now : ℚ)

/-- Executing one operation; none models an uncaught Python exception. -/
def step (sys : MPState) : MPOp → Option MPState
  | MPOp.create host mp sid now => some (create_session sys host mp sid now).2
  | MPOp.join sid p => some (join_session sys sid p).2
  | MPOp.leave n => (leave_session sys n).map Prod.snd
  | MPOp.start sid => some (start_session sys sid).2
  | MPOp.cleanup h now => (cleanup_expired_sessions sys h now).map Prod.snd

/-- Executing a sequence of operations from a starting state. -/
def run (sys : MPState) : List MPOp → Option MPState
  | [] => some sys
  | op :: ops =>
      match step sys op with
      | none => none
      | some sys2 => run sys2 ops

/-- A create call is clean when its fresh uuid session id does not collide
with an existing session and its host is not already mapped to a session;
every other operation is unconditionally clean. -/
def cleanCreate (sys : MPState) : MPOp → Bool
  | MPOp.create host _ sid _ =>
      (alookup sid sys.active_sessions).isNone &&
      (alookup host.name sys.player_sessions).isNone
  | _ => true

/-- A trace is clean when every create call in it is clean at the state
where it executes. -/
def cleanTrace (sys : MPState) : List MPOp → Bool
  | [] => true
  | op :: ops =>
      cleanCreate sys op &&
      match step sys op with
      | none => true
      | some sys2 => cleanTrace sys2 ops

/-- The names on a session's roster. -/
def rosterNames (s : GameSession) : List String := s.players.map MPlayer.name

/-- The roster / index consistency invariant: both dicts have unique keys,
and the player index maps a name to a session id exactly when that session
exists and its roster contains the name. -/
def Consistent (sys : MPState) : Prop :=
  (akeys sys.active_sessions).Nodup ∧ (akeys sys.player_sessions).Nodup ∧
  ∀ n sid, alookup n sys.player_sessions = some sid ↔
    ∃ s, alookup sid sys.active_sessions = some s ∧ n ∈ rosterNames s

/-- _determine_turn_order reads only each roster entry's name and
stats['agility']. -/
structure TPlayer where
  name : String
  agility : ℤ
deriving DecidableEq

/-- _determine_turn_order from multiplayer_system.py: sort the players by
agility, highest first (Python sorted is a stable sort; reverse=True
keeps the original order among equal keys, matching insertionSort with a
non-strict descending comparison), take their names, and append an enemy
turn after each player. -/
def determine_turn_order (players : List TPlayer) : List String :=
  let sorted_players := List.insertionSort (fun a b => b.agility ≤ a.agility) players
  let turn_order := sorted_players.map TPlayer.name
  turn_order.foldl (fun acc n => acc ++ [n, "enemy"]) []

/-- The descending-agility comparison used to sort the roster is total. -/
instance : IsTotal TPlayer (fun a b => b.agility ≤ a.agility) :=
  ⟨fun a b => le_total b.agility a.agility⟩

/-- The descending-agility comparison used to sort the roster is
transitive. -/
instance : IsTrans TPlayer (fun a b => b.agility ≤ a.agility) :=
  ⟨fun _ _ _ hab hbc => le_trans hbc hab⟩

end MultiplayerSystem

/-! Concrete states used to evaluate the definitions on specific inputs. -/

/-- Stats of a sample level-1 swordsman-like player with no defense. -/
def exStats : Stats :=
  { strength := 10, agility := 10, intelligence := 10, defense := 0
    magic_power := 8, max_hp := 100 }

/-- An ongoing combat, enemy to act, with the player at 1 HP and the enemy
holding the Crushing Bite special ability. -/
def exCombat1 : CombatSystem.CombatState :=
  { player := { name := "Hero", stats := exStats, current_hp := 1, max_hp := 100 }
    enemy :=
      { name := "Tyrannosaurus Rex", attack := 10, defense := 0, current_hp := 50
        max_hp := 200, special_abilities := ["Crushing Bite", "Intimidating Roar"] }
    turn := CombatSystem.Turn.enemy
    round := 1
    status := CombatSystem.CombatStatus.ongoing
    log := []
    player_defending := false }

/-- An ongoing combat, player to act, with the enemy at 5 HP. -/
def exCombat2 : CombatSystem.CombatState :=
  { player := { name := "Hero", stats := exStats, current_hp := 80, max_hp := 100 }
    enemy :=
      { name := "Dire Wolf", attack := 16, defense := 12, current_hp := 5
        max_hp := 80, special_abilities := ["Pack Howl", "Bite and Hold"] }
    turn := CombatSystem.Turn.player
    round := 1
    status := CombatSystem.CombatStatus.ongoing
    log := []
    player_defending := false }

/-- An ongoing combat, enemy to act, against a Megalania holding the
Venomous Bite special ability, player at 100 HP. -/
def exCombat3 : CombatSystem.CombatState :=
  { player := { name := "Hero", stats := exStats, current_hp := 100, max_hp := 100 }
    enemy :=
      { name := "Megalania", attack := 10, defense := 0, current_hp := 160
        max_hp := 160, special_abilities := ["Venomous Bite", "Tail Whip"] }
    turn := CombatSystem.Turn.enemy
    round := 1
    status := CombatSystem.CombatStatus.ongoing
    log := []
    player_defending := false }

/-- A sample level-5 character whose top-level max_hp mirrors
stats.max_hp, as create_character and level_up maintain. -/
def exCharacter : CharacterSystem.Character :=
  { name := "Rin", className := "swordsman", level := 5, experience := 40
    experience_to_next := 500, gold := 250
    stats :=
      { strength := 22, agility := 14, intelligence := 12, defense := 18
        magic_power := 9, max_hp := 150 }
    current_hp := 90, max_hp := 150
    abilities := ["Sword Mastery", "Heavy Strike", "Parry"]
    quests_completed := 3, monsters_defeated := 4 }

/-- A sample stat-growth draw for one level-up. -/
def exGrowth : CharacterSystem.StatGrowth :=
  { strength := 3, agility := 2, intelligence := 1, defense := 2, magic_power := 1 }

/-- The Tyrannosaurus Rex bestiary template; its special_abilities list
object lives at reference 0 of exBestiaryStore. -/
def exRexTemplate : QuestSystem.Creature :=
  { name := "Tyrannosaurus Rex", difficulty := "legendary", hp := 200, attack := 25
    defense := 15, special_abilities := 0, max_hp := none, current_hp := none }

/-- The heap holding the template's special_abilities list object. -/
def exBestiaryStore : QuestSystem.AbilityStore := [["Crushing Bite", "Intimidating Roar"]]

/-- A two-operation trace: alice hosts a session and bob joins it. -/
def exTrace : List MultiplayerSystem.MPOp :=
  [MultiplayerSystem.MPOp.create ⟨"alice"⟩ 4 "S1" 0,
   MultiplayerSystem.MPOp.join "S1" ⟨"bob"⟩]

/-- The state reached by exTrace. -/
def exTraceState : MultiplayerSystem.MPState :=
  { active_sessions :=
      [("S1",
        { session_id := "S1", host_player := "alice", players := [⟨"alice"⟩, ⟨"bob"⟩]
          max_players := 4, status := MultiplayerSystem.SessionStatus.waiting
          created_at := 0 })]
    player_sessions := [("alice", "S1"), ("bob", "S1")] }

/-- A trace in which the same host creates two sessions without leaving. -/
def exDoubleCreate : List MultiplayerSystem.MPOp :=
  [MultiplayerSystem.MPOp.create ⟨"alice"⟩ 4 "S1" 0,
   MultiplayerSystem.MPOp.create ⟨"alice"⟩ 4 "S2" 0]

/-- The state reached by exDoubleCreate: alice sits on both rosters while
the index points only at S2. -/
def exDoubleState : MultiplayerSystem.MPState :=
  { active_sessions :=
      [("S1",
        { session_id := "S1", host_player := "alice", players := [⟨"alice"⟩]
          max_players := 4, status := MultiplayerSystem.SessionStatus.waiting
          created_at := 0 }),
       ("S2",
        { session_id := "S2", host_player := "alice", players := [⟨"alice"⟩]
          max_players := 4, status := MultiplayerSystem.SessionStatus.waiting
          created_at := 0 })]
    player_sessions := [("alice", "S2")] }

/-- A one-session state with a full roster: max_players is 1 and the host
already fills it. -/
def exFullSystem : MultiplayerSystem.MPState :=
  { active_sessions :=
      [("S1",
        { session_id := "S1", host_player := "alice", players := [⟨"alice"⟩]
          max_players := 1, status := MultiplayerSystem.SessionStatus.waiting
          created_at := 0 })]
    player_sessions := [("alice", "S1")] }

/-! Theorems. -/

namespace CombatSystem

/-- apply_hits never drives HP below zero when it starts non-negative. -/
theorem apply_hits_nonneg (n : ℕ) (damage hp : ℤ) (h : 0 ≤ hp) :
    0 ≤ (apply_hits n damage hp).2 := by
  induction n generalizing hp with
  | zero => simpa [apply_hits] using h
  | succ k ih =>
      simp only [apply_hits]
      exact ih _ (le_max_left 0 _)

/-- Executing an enemy special ability never changes status, turn or
round, and keeps player HP non-negative. -/
theorem exec_special_frame (abilityIdx : ℕ) (variance : ℤ) (st : CombatState)
    (h : 0 ≤ st.player.current_hp) :
    (execute_enemy_special_ability abilityIdx variance st).status = st.status ∧
    (execute_enemy_special_ability abilityIdx variance st).turn = st.turn ∧
    (execute_enemy_special_ability abilityIdx variance st).round = st.round ∧
    0 ≤ (execute_enemy_special_ability abilityIdx variance st).player.current_hp := by
  unfold execute_enemy_special_ability
  split
  · exact ⟨rfl, rfl, rfl, h⟩
  · dsimp only
    split
    · exact ⟨rfl, rfl, rfl, apply_hits_nonneg _ _ _ h⟩
    · split_ifs <;>
        exact ⟨rfl, rfl, rfl, by first | exact h | exact le_max_left 0 _⟩

/-- C7: in an ongoing combat on the player's turn, playerAttack never
leaves the enemy's HP negative; reducing it to exactly 0 yields status
victory with the turn still on the player (terminal, no enemy turn
follows); otherwise the status stays ongoing and the turn flips to the
enemy. -/
theorem player_attack_spec (variance : ℤ) (crit : Bool) (st : CombatState)
    (hs : st.status = CombatStatus.ongoing) (ht : st.turn = Turn.player) :
    0 ≤ (player_attack variance crit st).enemy.current_hp ∧
    ((player_attack variance crit st).enemy.current_hp = 0 →
      (player_attack variance crit st).status = CombatStatus.victory ∧
      (player_attack variance crit st).turn = Turn.player) ∧
    ((player_attack variance crit st).enemy.current_hp ≠ 0 →
      (player_attack variance crit st).status = CombatStatus.ongoing ∧
      (player_attack variance crit st).turn = Turn.enemy) := by
  unfold player_attack
  dsimp only
  split_ifs with hle
  · exact ⟨le_max_left _ _, fun _ => ⟨rfl, ht⟩,
      fun hnz => absurd (le_antisymm hle (le_max_left _ _)) hnz⟩
  · exact ⟨le_max_left _ _, fun hzero => absurd hzero.le hle, fun _ => ⟨hs, rfl⟩⟩

/-- C7 witness: player_attack_spec evaluated on exCombat2. -/
theorem player_attack_spec_witness :
    0 ≤ (player_attack 0 false exCombat2).enemy.current_hp ∧
    ((player_attack 0 false exCombat2).enemy.current_hp = 0 →
      (player_attack 0 false exCombat2).status = CombatStatus.victory ∧
      (player_attack 0 false exCombat2).turn = Turn.player) ∧
    ((player_attack 0 false exCombat2).enemy.current_hp ≠ 0 →
      (player_attack 0 false exCombat2).status = CombatStatus.ongoing ∧
      (player_attack 0 false exCombat2).turn = Turn.enemy) :=
  player_attack_spec 0 false exCombat2 (by decide) (by decide)

/-- C1 counterexample: on exCombat1 (player at 1 HP) the enemy's Crushing
Bite special ability drops the player to exactly 0 HP, yet the resulting
status is still ongoing and the turn returns to the player, so the claim
that any enemy action reducing player HP to 0 yields status defeat is
false. -/
theorem enemy_turn_special_zero_hp_cx :
    (enemy_turn EnemyAction.special 0 0 exCombat1).player.current_hp = 0 ∧
    (enemy_turn EnemyAction.special 0 0 exCombat1).status = CombatStatus.ongoing ∧
    (enemy_turn EnemyAction.special 0 0 exCombat1).turn = Turn.player := by
  norm_num +decide [enemy_turn, execute_enemy_special_ability, ability_effects,
    calculate_enemy_damage, apply_hits, exCombat1, exStats, pyInt]

/-- C1 (amended): in an ongoing combat on the enemy's turn, enemyTurn never
leaves player HP negative; a plain attack reducing player HP to 0 sets
status defeat without returning the turn to the player, and a plain attack
leaving positive HP keeps the combat ongoing; but a special ability always
returns the turn to the player with the status unchanged, even when it
reduced player HP to 0. -/
theorem enemy_turn_spec (action : EnemyAction) (variance : ℤ) (abilityIdx : ℕ)
    (st : CombatState) (h0 : 0 ≤ st.player.current_hp)
    (hs : st.status = CombatStatus.ongoing) (ht : st.turn = Turn.enemy) :
    0 ≤ (enemy_turn action variance abilityIdx st).player.current_hp ∧
    (action = EnemyAction.attack →
      ((enemy_turn action variance abilityIdx st).player.current_hp = 0 →
        (enemy_turn action variance abilityIdx st).status = CombatStatus.defeat ∧
        (enemy_turn action variance abilityIdx st).turn = Turn.enemy) ∧
      (0 < (enemy_turn action variance abilityIdx st).player.current_hp →
        (enemy_turn action variance abilityIdx st).status = CombatStatus.ongoing ∧
        (enemy_turn action variance abilityIdx st).turn = Turn.player)) ∧
    (action = EnemyAction.special →
      (enemy_turn action variance abilityIdx st).status = CombatStatus.ongoing ∧
      (enemy_turn action variance abilityIdx st).turn = Turn.player) := by
  cases action with
  | attack =>
      unfold enemy_turn
      dsimp only
      split_ifs <;> rename_i hle <;>
        first
          | exact ⟨le_max_left _ _,
              fun _ => ⟨fun _ => ⟨rfl, ht⟩,
                fun hpos => absurd (lt_of_lt_of_le hpos hle) (lt_irrefl 0)⟩,
              fun hsp => nomatch hsp⟩
          | exact ⟨le_max_left _ _,
              fun _ => ⟨fun hzero => absurd hzero.le hle, fun _ => ⟨hs, rfl⟩⟩,
              fun hsp => nomatch hsp⟩
  | special =>
      have hf := exec_special_frame abilityIdx variance st h0
      refine ⟨hf.2.2.2, ?_, fun _ => ⟨hf.1.trans hs, rfl⟩⟩
      intro hat
      exact absurd hat (by decide)

/-- C1 witness: enemy_turn_spec evaluated on exCombat1 with a plain
attack. -/
theorem enemy_turn_spec_witness :
    0 ≤ (enemy_turn EnemyAction.attack 0 0 exCombat1).player.current_hp ∧
    (EnemyAction.attack = EnemyAction.attack →
      ((enemy_turn EnemyAction.attack 0 0 exCombat1).player.current_hp = 0 →
        (enemy_turn EnemyAction.attack 0 0 exCombat1).status = CombatStatus.defeat ∧
        (enemy_turn EnemyAction.attack 0 0 exCombat1).turn = Turn.enemy) ∧
      (0 < (enemy_turn EnemyAction.attack 0 0 exCombat1).player.current_hp →
        (enemy_turn EnemyAction.attack 0 0 exCombat1).status = CombatStatus.ongoing ∧
        (enemy_turn EnemyAction.attack 0 0 exCombat1).turn = Turn.player)) ∧
    (EnemyAction.attack = EnemyAction.special →
      (enemy_turn EnemyAction.attack 0 0 exCombat1).status = CombatStatus.ongoing ∧
      (enemy_turn EnemyAction.attack 0 0 exCombat1).turn = Turn.player) :=
  enemy_turn_spec EnemyAction.attack 0 0 exCombat1 (by decide) (by decide) (by decide)

/-- C8 counterexample: on exCombat3 the enemy's Venomous Bite (multiplier
1.2, attack 10, variance 0) deals 12 damage, leaving the player at 88 HP;
the flat 5 poison damage the claim requires is not applied (that would
leave 83 HP), because the poison branch is an elif behind the
damage-multiplier check. -/
theorem venomous_bite_poison_cx :
    (enemy_turn EnemyAction.special 0 0 exCombat3).player.current_hp = 88 ∧
    ¬ (enemy_turn EnemyAction.special 0 0 exCombat3).player.current_hp = 83 := by
  norm_num +decide [enemy_turn, execute_enemy_special_ability, ability_effects,
    calculate_enemy_damage, apply_hits, exCombat3, exStats, pyInt]

/-- C8 (amended): for an ability whose effect profile carries both a
damage multiplier and the poison tag — Venomous Bite, the only poison
ability — executing it applies exactly one round of multiplier damage and
no flat 5 poison damage: the resulting player HP is the clamped
subtraction of the multiplier damage alone, and the enemy record is
untouched. -/
theorem venomous_bite_multiplier_only (abilityIdx : ℕ) (variance : ℤ)
    (st : CombatState) (hne : st.enemy.special_abilities ≠ [])
    (ha : st.enemy.special_abilities.getD
        (abilityIdx % st.enemy.special_abilities.length) "" = "Venomous Bite") :
    (execute_enemy_special_ability abilityIdx variance st).player.current_hp =
      max 0 (st.player.current_hp -
        max 1 (pyInt (((max 1 (st.enemy.attack + variance) : ℤ) : ℚ) * (6 / 5)) -
          st.player.stats.defense)) ∧
    (execute_enemy_special_ability abilityIdx variance st).enemy = st.enemy := by
  have heff : ability_effects st.enemy.name "Venomous Bite" =
      ⟨some (6 / 5), some "poison", 1, st.enemy.name ++ " bites with venomous fangs!"⟩ := rfl
  have hone : ∀ damage hp : ℤ, apply_hits 1 damage hp = (damage + 0, max 0 (hp - damage)) :=
    fun damage hp => rfl
  unfold execute_enemy_special_ability
  rw [if_neg hne, ha]
  dsimp only
  rw [heff]
  dsimp only
  rw [hone]
  exact ⟨rfl, rfl⟩

/-- C8 amended witness: venomous_bite_multiplier_only evaluated on
exCombat3. -/
theorem venomous_bite_multiplier_only_witness :
    (execute_enemy_special_ability 0 0 exCombat3).player.current_hp =
      max 0 (exCombat3.player.current_hp -
        max 1 (pyInt (((max 1 (exCombat3.enemy.attack + 0) : ℤ) : ℚ) * (6 / 5)) -
          exCombat3.player.stats.defense)) ∧
    (execute_enemy_special_ability 0 0 exCombat3).enemy = exCombat3.enemy :=
  venomous_bite_multiplier_only 0 0 exCombat3 (by decide) (by decide)

end CombatSystem

namespace CharacterSystem

/-- C6: levelUp increments the level, zeroes experience, sets
experience_to_next to the new level times 100, raises max_hp by the drawn
increment (so strictly, since the draw lies in [8,15]) and restores
current_hp to the new max_hp.  The hypothesis that the character's
top-level max_hp mirrors stats.max_hp is the state maintained by
create_character and by level_up itself. -/
theorem level_up_spec (growth : StatGrowth) (hp_increase : ℤ) (c : Character)
    (hrange : 8 ≤ hp_increase ∧ hp_increase ≤ 15)
    (hinv : c.max_hp = c.stats.max_hp) :
    (level_up growth hp_increase c).level = c.level + 1 ∧
    (level_up growth hp_increase c).experience = 0 ∧
    (level_up growth hp_increase c).experience_to_next =
      (level_up growth hp_increase c).level * 100 ∧
    c.max_hp < (level_up growth hp_increase c).max_hp ∧
    (level_up growth hp_increase c).max_hp = c.max_hp + hp_increase ∧
    8 ≤ hp_increase ∧ hp_increase ≤ 15 ∧
    (level_up growth hp_increase c).current_hp = (level_up growth hp_increase c).max_hp := by
  obtain ⟨h8, h15⟩ := hrange
  unfold level_up
  dsimp only
  exact ⟨rfl, rfl, rfl, by rw [hinv]; omega, by rw [hinv], h8, h15, rfl⟩

/-- C6 witness: level_up_spec evaluated on exCharacter with a draw of
10. -/
theorem level_up_spec_witness :
    (level_up exGrowth 10 exCharacter).level = exCharacter.level + 1 ∧
    (level_up exGrowth 10 exCharacter).experience = 0 ∧
    (level_up exGrowth 10 exCharacter).experience_to_next =
      (level_up exGrowth 10 exCharacter).level * 100 ∧
    exCharacter.max_hp < (level_up exGrowth 10 exCharacter).max_hp ∧
    (level_up exGrowth 10 exCharacter).max_hp = exCharacter.max_hp + 10 ∧
    (8 : ℤ) ≤ 10 ∧ (10 : ℤ) ≤ 15 ∧
    (level_up exGrowth 10 exCharacter).current_hp = (level_up exGrowth 10 exCharacter).max_hp :=
  level_up_spec exGrowth 10 exCharacter (by decide) (by decide)

end CharacterSystem

namespace QuestSystem

/-- C5: the solo reward gold and experience equal the specified formulas
int((50 + level*25) * m) and int((40 + level*20) * m) with
m = difficulty_multiplier[difficulty] * template modifier, where the
difficulty multiplier table is easy 0.8, medium 1.0, hard 1.3,
legendary 1.6; and a level-3 player with a medium creature and modifier
1.0 receives exactly 125 gold. -/
theorem calculate_rewards_spec (level : ℤ) (difficulty : String) (dmod : ℚ)
    (itemRoll : Bool) (rolledItems : List String)
    (hd : difficulty = "easy" ∨ difficulty = "medium" ∨ difficulty = "hard" ∨
      difficulty = "legendary") :
    (calculate_rewards level difficulty dmod itemRoll rolledItems).gold =
      specRewardGold level (specDifficultyMultiplier difficulty * dmod) ∧
    (calculate_rewards level difficulty dmod itemRoll rolledItems).experience =
      specRewardExp level (specDifficultyMultiplier difficulty * dmod) ∧
    specDifficultyMultiplier "easy" = 4 / 5 ∧
    specDifficultyMultiplier "medium" = 1 ∧
    specDifficultyMultiplier "hard" = 13 / 10 ∧
    specDifficultyMultiplier "legendary" = 8 / 5 ∧
    (calculate_rewards 3 "medium" 1 false []).gold = 125 := by
  have hmul : difficulty_multipliers difficulty = specDifficultyMultiplier difficulty := by
    rcases hd with h | h | h | h <;> subst h <;> rfl
  refine ⟨?_, ?_, rfl, rfl, rfl, rfl, ?_⟩
  · unfold calculate_rewards specRewardGold
    dsimp only
    rw [hmul]
  · unfold calculate_rewards specRewardExp
    dsimp only
    rw [hmul]
  · norm_num +decide [calculate_rewards, difficulty_multipliers, pyInt]

/-- C5 witness: calculate_rewards_spec evaluated at level 3, medium
difficulty, modifier 1. -/
theorem calculate_rewards_spec_witness :
    (calculate_rewards 3 "medium" 1 false []).gold =
      specRewardGold 3 (specDifficultyMultiplier "medium" * 1) ∧
    (calculate_rewards 3 "medium" 1 false []).experience =
      specRewardExp 3 (specDifficultyMultiplier "medium" * 1) ∧
    specDifficultyMultiplier "easy" = 4 / 5 ∧
    specDifficultyMultiplier "medium" = 1 ∧
    specDifficultyMultiplier "hard" = 13 / 10 ∧
    specDifficultyMultiplier "legendary" = 8 / 5 ∧
    (calculate_rewards 3 "medium" 1 false []).gold = 125 :=
  calculate_rewards_spec 3 "medium" 1 false [] (Or.inr (Or.inl rfl))

end QuestSystem

namespace MultiplayerSystem

/-- C2: instantiating the Tyrannosaurus Rex template for a 3-player
multiplayer encounter mutates the bestiary template in place: the shallow
dict.copy() in _select_creature_for_player shares the special_abilities
list object with the template, and _scale_creature_for_multiplayer appends
"Area Attack" to that shared list, so the template's ability list object
changes. -/
theorem multiplayer_scaling_mutates_template :
    ((scale_creature_for_multiplayer exBestiaryStore
        (QuestSystem.select_creature_for_player exRexTemplate 2) 3 (3 / 2)).2).getD
      exRexTemplate.special_abilities [] =
      ["Crushing Bite", "Intimidating Roar", "Area Attack"] ∧
    ((scale_creature_for_multiplayer exBestiaryStore
        (QuestSystem.select_creature_for_player exRexTemplate 2) 3 (3 / 2)).2).getD
      exRexTemplate.special_abilities [] ≠
      exBestiaryStore.getD exRexTemplate.special_abilities [] := by
  norm_num +decide [scale_creature_for_multiplayer, QuestSystem.select_creature_for_player,
    QuestSystem.storeAppend, exBestiaryStore, exRexTemplate, pyInt]

/-- C9: the team turn order is some permutation of the roster sorted by
agility descending, with an enemy turn interleaved after every player;
and for two players with agility 20 and 10 it is exactly
[highAgilityName, enemy, lowAgilityName, enemy]. -/
theorem determine_turn_order_spec (players : List TPlayer) :
    (∃ ps : List TPlayer, players.Perm ps ∧
      List.Sorted (fun a b => b.agility ≤ a.agility) ps ∧
      determine_turn_order players =
        ps.foldl (fun acc p => acc ++ [p.name, "enemy"]) []) ∧
    (∀ lo hi : String,
      determine_turn_order [⟨lo, 10⟩, ⟨hi, 20⟩] = [hi, "enemy", lo, "enemy"]) := by
  constructor
  · refine ⟨List.insertionSort (fun a b => b.agility ≤ a.agility) players,
      (List.perm_insertionSort _ _).symm, List.sorted_insertionSort _ _, ?_⟩
    unfold determine_turn_order
    dsimp only
    rw [List.foldl_map]
  · intro lo hi
    norm_num [determine_turn_order, List.insertionSort, List.orderedInsert]

/-! Lemmas about the dict model. -/

theorem alookup_eq_none_iff {α : Type} (k : String) (l : List (String × α)) :
    alookup k l = none ↔ k ∉ akeys l := by
  induction l with
  | nil => simp [alookup, akeys]
  | cons p l ih =>
      simp only [akeys, List.map_cons, List.mem_cons] at ih ⊢
      rw [alookup]
      rcases Decidable.em (p.1 = k) with hp | hp
      · rw [if_pos hp]
        constructor
        · intro h
          exact absurd h (by simp)
        · intro h
          exact absurd (Or.inl hp.symm) h
      · rw [if_neg hp, ih]
        exact ⟨fun hn hor => hor.elim (fun he => hp he.symm) hn,
          fun hn hm => hn (Or.inr hm)⟩

theorem alookup_append_single_self {α : Type} (k : String) (v : α)
    (l : List (String × α)) (h : alookup k l = none) :
    alookup k (l ++ [(k, v)]) = some v := by
  induction l with
  | nil => simp [alookup]
  | cons p l ih =>
      rcases Decidable.em (p.1 = k) with hp | hp
      · rw [alookup, if_pos hp] at h
        exact absurd h (by simp)
      · rw [alookup, if_neg hp] at h
        rw [List.cons_append, alookup, if_neg hp]
        exact ih h

theorem alookup_append_single_ne {α : Type} (k k' : String) (v : α)
    (l : List (String × α)) (h : k' ≠ k) :
    alookup k' (l ++ [(k, v)]) = alookup k' l := by
  induction l with
  | nil => simp [alookup, Ne.symm h]
  | cons p l ih =>
      rw [List.cons_append, alookup, alookup]
      rcases Decidable.em (p.1 = k') with hp | hp
      · rw [if_pos hp, if_pos hp]
      · rw [if_neg hp, if_neg hp, ih]

theorem alookup_replace_self {α : Type} (k : String) (v : α)
    (l : List (String × α)) (h : (alookup k l).isSome) :
    alookup k (l.map (fun p => if p.1 = k then (k, v) else p)) = some v := by
  induction l with
  | nil => simp [alookup] at h
  | cons p l ih =>
      rcases Decidable.em (p.1 = k) with hp | hp
      · rw [List.map_cons, if_pos hp, alookup, if_pos rfl]
      · rw [alookup, if_neg hp] at h
        rw [List.map_cons, if_neg hp, alookup, if_neg hp]
        exact ih h

theorem alookup_replace_ne {α : Type} (k k' : String) (v : α)
    (l : List (String × α)) (h : k' ≠ k) :
    alookup k' (l.map (fun p => if p.1 = k then (k, v) else p)) = alookup k' l := by
  induction l with
  | nil => simp
  | cons p l ih =>
      rcases Decidable.em (p.1 = k) with hp | hp
      · have hk : ¬ (k = k') := fun he => h he.symm
        have hp' : ¬ (p.1 = k') := fun he => hk (hp.symm.trans he)
        rw [List.map_cons, if_pos hp, alookup, if_neg hk, alookup, if_neg hp', ih]
      · rw [List.map_cons, if_neg hp, alookup, alookup]
        rcases Decidable.em (p.1 = k') with hp' | hp'
        · rw [if_pos hp', if_pos hp']
        · rw [if_neg hp', if_neg hp', ih]

theorem alookup_ainsert_self {α : Type} (k : String) (v : α) (l : List (String × α)) :
    alookup k (ainsert k v l) = some v := by
  unfold ainsert
  split_ifs with h
  · exact alookup_replace_self k v l h
  · exact alookup_append_single_self k v l (by simpa using h)

theorem alookup_ainsert_ne {α : Type} (k k' : String) (v : α) (l : List (String × α))
    (h : k' ≠ k) : alookup k' (ainsert k v l) = alookup k' l := by
  unfold ainsert
  split_ifs with hi
  · exact alookup_replace_ne k k' v l h
  · exact alookup_append_single_ne k k' v l h

theorem alookup_aerase_self {α : Type} (k : String) (l : List (String × α)) :
    alookup k (aerase k l) = none := by
  induction l with
  | nil => rfl
  | cons p l ih =>
      rw [aerase]
      rcases Decidable.em (p.1 = k) with hp | hp
      · rw [if_pos hp]
        exact ih
      · rw [if_neg hp, alookup, if_neg hp]
        exact ih

theorem alookup_aerase_ne {α : Type} (k k' : String) (l : List (String × α))
    (h : k' ≠ k) : alookup k' (aerase k l) = alookup k' l := by
  induction l with
  | nil => rfl
  | cons p l ih =>
      rw [aerase]
      rcases Decidable.em (p.1 = k) with hp | hp
      · have hp' : ¬ (p.1 = k') := fun he => h (he.symm.trans hp)
        rw [if_pos hp, alookup, if_neg hp', ih]
      · rw [if_neg hp, alookup, alookup]
        rcases Decidable.em (p.1 = k') with hp' | hp'
        · rw [if_pos hp', if_pos hp']
        · rw [if_neg hp', if_neg hp', ih]

theorem akeys_replace {α : Type} (k : String) (v : α) (l : List (String × α)) :
    akeys (l.map (fun p => if p.1 = k then (k, v) else p)) = akeys l := by
  induction l with
  | nil => rfl
  | cons p l ih =>
      simp only [akeys, List.map_cons] at ih ⊢
      rcases Decidable.em (p.1 = k) with hp | hp
      · rw [if_pos hp]
        rw [ih, hp]
      · rw [if_neg hp]
        rw [ih]

theorem akeys_ainsert_nodup {α : Type} (k : String) (v : α) (l : List (String × α))
    (h : (akeys l).Nodup) : (akeys (ainsert k v l)).Nodup := by
  unfold ainsert
  split_ifs with hi
  · rw [akeys_replace]
    exact h
  · have hk : k ∉ akeys l := by
      rw [← alookup_eq_none_iff]
      cases ho : alookup k l with
      | none => rfl
      | some w =>
          rw [ho] at hi
          exact absurd rfl hi
    simp only [akeys, List.map_append, List.map_cons, List.map_nil] at h ⊢
    refine List.Nodup.append h (List.nodup_singleton k) ?_
    intro a ha hb
    rw [List.mem_singleton] at hb
    subst hb
    exact hk ha

theorem akeys_aerase_sublist {α : Type} (k : String) (l : List (String × α)) :
    (akeys (aerase k l)).Sublist (akeys l) := by
  induction l with
  | nil => simp [aerase, akeys]
  | cons p l ih =>
      rw [aerase]
      rcases Decidable.em (p.1 = k) with hp | hp
      · rw [if_pos hp]
        refine ih.trans ?_
        simp only [akeys, List.map_cons]
        exact List.sublist_cons_self _ _
      · rw [if_neg hp]
        simp only [akeys, List.map_cons]
        exact List.Sublist.cons₂ _ ih

theorem akeys_aerase_nodup {α : Type} (k : String) (l : List (String × α))
    (h : (akeys l).Nodup) : (akeys (aerase k l)).Nodup :=
  (akeys_aerase_sublist k l).nodup h

theorem alookup_foldl_aerase (players : List MPlayer) (ix : List (String × String))
    (n : String) :
    alookup n (players.foldl (fun ix p => aerase p.name ix) ix) =
      if n ∈ players.map MPlayer.name then none else alookup n ix := by
  induction players generalizing ix with
  | nil => simp
  | cons p ps ih =>
      rw [List.foldl_cons, ih]
      rcases Decidable.em (n = p.name) with hn | hn
      · simp [hn, alookup_aerase_self]
      · rw [alookup_aerase_ne _ _ _ hn]
        simp [hn]

theorem akeys_foldl_aerase_nodup (players : List MPlayer) (ix : List (String × String))
    (h : (akeys ix).Nodup) :
    (akeys (players.foldl (fun ix p => aerase p.name ix) ix)).Nodup := by
  induction players generalizing ix with
  | nil => exact h
  | cons p ps ih =>
      rw [List.foldl_cons]
      exact ih _ (akeys_aerase_nodup _ _ h)

/-- C4 counterexample: create_session called with max_players = 1 (below
the claimed minimum of 2) does not fail: it creates the session, with
status waiting and roster [host], and indexes the host, because the source
performs no validation of max_players at all. -/
theorem create_session_no_validation_cx :
    (create_session emptySystem ⟨"alice"⟩ 1 "S1" 0).2.active_sessions =
      [("S1",
        { session_id := "S1", host_player := "alice", players := [⟨"alice"⟩],
          max_players := 1, status := SessionStatus.waiting, created_at := 0 })] ∧
    (create_session emptySystem ⟨"alice"⟩ 1 "S1" 0).2.player_sessions =
      [("alice", "S1")] ∧
    (create_session emptySystem ⟨"alice"⟩ 1 "S1" 0).1 = "S1" := by
  refine ⟨?_, ?_, rfl⟩ <;> rfl

/-- C4 (amended): create_session validates nothing and never fails: for
every max_players value, including values below 2, it returns the fresh
session id and a state in which that id maps to a session with status
waiting, roster exactly [host], the given max_players, and the host is
indexed to the session id. -/
theorem create_session_spec (sys : MPState) (host : MPlayer) (mp : ℤ)
    (sid : String) (now : ℚ) :
    (create_session sys host mp sid now).1 = sid ∧
    alookup sid (create_session sys host mp sid now).2.active_sessions =
      some { session_id := sid, host_player := host.name, players := [host],
             max_players := mp, status := SessionStatus.waiting, created_at := now } ∧
    alookup host.name (create_session sys host mp sid now).2.player_sessions = some sid := by
  refine ⟨rfl, ?_, ?_⟩
  · exact alookup_ainsert_self sid _ sys.active_sessions
  · exact alookup_ainsert_self host.name sid sys.player_sessions

/-- C3: join_session returns false exactly when the session id is unknown,
the roster is full (size equal to max_players — the source tests size ≥
max_players, which under the roster-bound hypothesis is the same), the
status is not waiting, or the joining player's name is already mapped; and
on failure the state is returned unchanged.  The hypothesis that the
target roster never exceeds max_players holds in every state reachable
with sessions created for max_players ≥ 1, since joins stop at the
bound. -/
theorem join_session_spec (sys : MPState) (sid : String) (p : MPlayer)
    (hbound : ∀ s, alookup sid sys.active_sessions = some s →
      (s.players.length : ℤ) ≤ s.max_players) :
    ((join_session sys sid p).1 = false ↔
      (alookup sid sys.active_sessions = none ∨
       (∃ s, alookup sid sys.active_sessions = some s ∧
          ((s.players.length : ℤ) = s.max_players ∨ s.status ≠ SessionStatus.waiting)) ∨
       (alookup p.name sys.player_sessions).isSome = true)) ∧
    ((join_session sys sid p).1 = false → (join_session sys sid p).2 = sys) := by
  unfold join_session
  cases hl : alookup sid sys.active_sessions with
  | none => simp [hl]
  | some s =>
      have hb := hbound s hl
      simp only [hl]
      split_ifs with hfull hstat hmapped
      · exact ⟨⟨fun _ => Or.inr (Or.inl ⟨s, rfl, Or.inl (le_antisymm hb hfull)⟩),
          fun _ => rfl⟩, fun _ => rfl⟩
      · exact ⟨⟨fun _ => Or.inr (Or.inl ⟨s, rfl, Or.inr hstat⟩), fun _ => rfl⟩,
          fun _ => rfl⟩
      · exact ⟨⟨fun _ => Or.inr (Or.inr hmapped), fun _ => rfl⟩, fun _ => rfl⟩
      · constructor
        · constructor
          · intro hfalse
            exact absurd hfalse (by simp)
          · intro hr
            exfalso
            rcases hr with hnone | ⟨s', hs', hcond⟩ | hmap
            · exact absurd hnone (by simp)
            · have hss : s = s' := by injection hs'
              subst hss
              rcases hcond with hlen | hst
              · omega
              · exact hstat hst
            · exact hmapped hmap
        · intro hfalse
          exact absurd hfalse (by simp)

/-- C3 witness: join_session_spec evaluated on the full one-seat session of
exFullSystem with bob joining. -/
theorem join_session_spec_witness :
    ((join_session exFullSystem "S1" ⟨"bob"⟩).1 = false ↔
      (alookup "S1" exFullSystem.active_sessions = none ∨
       (∃ s, alookup "S1" exFullSystem.active_sessions = some s ∧
          ((s.players.length : ℤ) = s.max_players ∨ s.status ≠ SessionStatus.waiting)) ∨
       (alookup "bob" exFullSystem.player_sessions).isSome = true)) ∧
    ((join_session exFullSystem "S1" ⟨"bob"⟩).1 = false →
      (join_session exFullSystem "S1" ⟨"bob"⟩).2 = exFullSystem) :=
  join_session_spec exFullSystem "S1" ⟨"bob"⟩ (by
    intro s hs
    simp [exFullSystem, alookup] at hs
    subst hs
    norm_num)

/-! Consistency preservation for the session-lifecycle state machine. -/

theorem consistent_empty : Consistent emptySystem := by
  refine ⟨by simp [akeys, emptySystem], by simp [akeys, emptySystem], ?_⟩
  intro n sid
  simp [alookup, emptySystem]

theorem mem_names_filter (players : List MPlayer) (name n : String) :
    n ∈ (players.filter (fun p => p.name ≠ name)).map MPlayer.name ↔
      (n ∈ players.map MPlayer.name ∧ ¬ n = name) := by
  simp only [List.mem_map, List.mem_filter, decide_not, Bool.not_eq_true',
    decide_eq_false_iff_not]
  constructor
  · rintro ⟨q, ⟨hq, hqs⟩, rfl⟩
    exact ⟨⟨q, hq, rfl⟩, hqs⟩
  · rintro ⟨⟨q, hq, rfl⟩, hn⟩
    exact ⟨q, ⟨hq, hn⟩, rfl⟩

theorem create_preserves (sys : MPState) (host : MPlayer) (mp : ℤ) (sid : String)
    (now : ℚ) (hc : Consistent sys)
    (hfresh : alookup sid sys.active_sessions = none)
    (hhost : alookup host.name sys.player_sessions = none) :
    Consistent (create_session sys host mp sid now).2 := by
  obtain ⟨hn1, hn2, hiff⟩ := hc
  unfold create_session
  dsimp only
  refine ⟨akeys_ainsert_nodup _ _ _ hn1, akeys_ainsert_nodup _ _ _ hn2, ?_⟩
  intro n sid2
  by_cases hn : n = host.name
  · subst hn
    rw [alookup_ainsert_self]
    constructor
    · intro he
      injection he with he
      subst he
      exact ⟨_, alookup_ainsert_self _ _ _, by simp [rosterNames]⟩
    · rintro ⟨s, hs, hm⟩
      by_cases hsid : sid2 = sid
      · subst hsid
        rfl
      · rw [alookup_ainsert_ne _ _ _ _ hsid] at hs
        have he := (hiff host.name sid2).mpr ⟨s, hs, hm⟩
        rw [hhost] at he
        exact absurd he (by simp)
  · rw [alookup_ainsert_ne _ _ _ _ hn]
    constructor
    · intro he
      obtain ⟨s, hs, hm⟩ := (hiff n sid2).mp he
      by_cases hsid : sid2 = sid
      · subst hsid
        rw [hfresh] at hs
        exact absurd hs (by simp)
      · exact ⟨s, by rw [alookup_ainsert_ne _ _ _ _ hsid]; exact hs, hm⟩
    · rintro ⟨s, hs, hm⟩
      by_cases hsid : sid2 = sid
      · subst hsid
        rw [alookup_ainsert_self] at hs
        injection hs with hs
        subst hs
        simp [rosterNames] at hm
        exact absurd hm hn
      · rw [alookup_ainsert_ne _ _ _ _ hsid] at hs
        exact (hiff n sid2).mpr ⟨s, hs, hm⟩

theorem join_preserves (sys : MPState) (sid : String) (p : MPlayer)
    (hc : Consistent sys) : Consistent (join_session sys sid p).2 := by
  obtain ⟨hn1, hn2, hiff⟩ := hc
  unfold join_session
  cases hl : alookup sid sys.active_sessions with
  | none =>
      simp only [hl]
      exact ⟨hn1, hn2, hiff⟩
  | some s =>
      simp only [hl]
      split_ifs with hfull hstat hmapped
      · exact ⟨hn1, hn2, hiff⟩
      · exact ⟨hn1, hn2, hiff⟩
      · exact ⟨hn1, hn2, hiff⟩
      · refine ⟨akeys_ainsert_nodup _ _ _ hn1, akeys_ainsert_nodup _ _ _ hn2, ?_⟩
        intro n sid2
        by_cases hn : n = p.name
        · subst hn
          rw [alookup_ainsert_self]
          constructor
          · intro he
            injection he with he
            subst he
            refine ⟨_, alookup_ainsert_self _ _ _, ?_⟩
            simp [rosterNames]
          · rintro ⟨s', hs', hm⟩
            by_cases hsid : sid2 = sid
            · subst hsid
              rfl
            · rw [alookup_ainsert_ne _ _ _ _ hsid] at hs'
              have he := (hiff p.name sid2).mpr ⟨s', hs', hm⟩
              exact absurd (by rw [he]; rfl) hmapped
        · rw [alookup_ainsert_ne _ _ _ _ hn]
          constructor
          · intro he
            obtain ⟨s', hs', hm⟩ := (hiff n sid2).mp he
            by_cases hsid : sid2 = sid
            · subst hsid
              rw [hl] at hs'
              injection hs' with hs'
              subst hs'
              refine ⟨_, alookup_ainsert_self _ _ _, ?_⟩
              simp only [rosterNames, List.map_append, List.mem_append]
              left
              exact hm
            · exact ⟨s', by rw [alookup_ainsert_ne _ _ _ _ hsid]; exact hs', hm⟩
          · rintro ⟨s', hs', hm⟩
            by_cases hsid : sid2 = sid
            · subst hsid
              rw [alookup_ainsert_self] at hs'
              injection hs' with hs'
              subst hs'
              simp only [rosterNames, List.map_append, List.mem_append, List.map_cons,
                List.map_nil, List.mem_singleton] at hm
              rcases hm with hm | hm
              · exact (hiff n _).mpr ⟨s, hl, hm⟩
              · exact absurd hm hn
            · rw [alookup_ainsert_ne _ _ _ _ hsid] at hs'
              exact (hiff n sid2).mpr ⟨s', hs', hm⟩

theorem start_preserves (sys : MPState) (sid : String) (hc : Consistent sys) :
    Consistent (start_session sys sid).2 := by
  obtain ⟨hn1, hn2, hiff⟩ := hc
  unfold start_session
  cases hl : alookup sid sys.active_sessions with
  | none =>
      simp only [hl]
      exact ⟨hn1, hn2, hiff⟩
  | some s =>
      simp only [hl]
      split_ifs with h1 h2
      · exact ⟨hn1, hn2, hiff⟩
      · exact ⟨hn1, hn2, hiff⟩
      · refine ⟨akeys_ainsert_nodup _ _ _ hn1, hn2, ?_⟩
        intro n sid2
        rw [hiff n sid2]
        constructor
        · rintro ⟨s', hs', hm⟩
          by_cases hsid : sid2 = sid
          · subst hsid
            rw [hl] at hs'
            injection hs' with hs'
            subst hs'
            exact ⟨_, alookup_ainsert_self _ _ _, hm⟩
          · exact ⟨s', by rw [alookup_ainsert_ne _ _ _ _ hsid]; exact hs', hm⟩
        · rintro ⟨s', hs', hm⟩
          by_cases hsid : sid2 = sid
          · subst hsid
            rw [alookup_ainsert_self] at hs'
            injection hs' with hs'
            subst hs'
            exact ⟨s, hl, hm⟩
          · rw [alookup_ainsert_ne _ _ _ _ hsid] at hs'
            exact ⟨s', hs', hm⟩

theorem erase_state_consistent (sys : MPState) (name sid : String)
    (session : GameSession) (hc : Consistent sys)
    (hix : alookup name sys.player_sessions = some sid)
    (hs : alookup sid sys.active_sessions = some session)
    (hempty : ∀ n, n ∈ rosterNames session → n = name) :
    Consistent { active_sessions := aerase sid sys.active_sessions,
                 player_sessions := aerase name sys.player_sessions } := by
  obtain ⟨hn1, hn2, hiff⟩ := hc
  refine ⟨akeys_aerase_nodup _ _ hn1, akeys_aerase_nodup _ _ hn2, ?_⟩
  intro n sid2
  by_cases hn : n = name
  · subst hn
    rw [alookup_aerase_self]
    constructor
    · intro he
      exact absurd he (by simp)
    · rintro ⟨s', hs', hm⟩
      by_cases hsid : sid2 = sid
      · subst hsid
        rw [alookup_aerase_self] at hs'
        exact absurd hs' (by simp)
      · rw [alookup_aerase_ne _ _ _ hsid] at hs'
        have he := (hiff n sid2).mpr ⟨s', hs', hm⟩
        rw [hix] at he
        injection he with he
        exact absurd he.symm hsid
  · rw [alookup_aerase_ne _ _ _ hn, hiff n sid2]
    constructor
    · rintro ⟨s', hs', hm⟩
      by_cases hsid : sid2 = sid
      · subst hsid
        rw [hs] at hs'
        injection hs' with hs'
        subst hs'
        exact absurd (hempty n hm) hn
      · exact ⟨s', by rw [alookup_aerase_ne _ _ _ hsid]; exact hs', hm⟩
    · rintro ⟨s', hs', hm⟩
      by_cases hsid : sid2 = sid
      · subst hsid
        rw [alookup_aerase_self] at hs'
        exact absurd hs' (by simp)
      · rw [alookup_aerase_ne _ _ _ hsid] at hs'
        exact ⟨s', hs', hm⟩

theorem update_state_consistent (sys : MPState) (name sid hostName : String)
    (session : GameSession) (hc : Consistent sys)
    (hix : alookup name sys.player_sessions = some sid)
    (hs : alookup sid sys.active_sessions = some session) :
    Consistent
      { active_sessions :=
          ainsert sid
            { session with
                players := session.players.filter (fun p => p.name ≠ name),
                host_player := hostName }
            sys.active_sessions,
        player_sessions := aerase name sys.player_sessions } := by
  obtain ⟨hn1, hn2, hiff⟩ := hc
  refine ⟨akeys_ainsert_nodup _ _ _ hn1, akeys_aerase_nodup _ _ hn2, ?_⟩
  intro n sid2
  by_cases hn : n = name
  · subst hn
    rw [alookup_aerase_self]
    constructor
    · intro he
      exact absurd he (by simp)
    · rintro ⟨s', hs', hm⟩
      by_cases hsid : sid2 = sid
      · subst hsid
        rw [alookup_ainsert_self] at hs'
        injection hs' with hs'
        subst hs'
        have hmm := (mem_names_filter session.players n n).mp
          (by simpa [rosterNames] using hm)
        exact absurd rfl hmm.2
      · rw [alookup_ainsert_ne _ _ _ _ hsid] at hs'
        have he := (hiff n sid2).mpr ⟨s', hs', hm⟩
        rw [hix] at he
        injection he with he
        exact absurd he.symm hsid
  · rw [alookup_aerase_ne _ _ _ hn, hiff n sid2]
    constructor
    · rintro ⟨s', hs', hm⟩
      by_cases hsid : sid2 = sid
      · subst hsid
        rw [hs] at hs'
        injection hs' with hs'
        subst hs'
        refine ⟨_, alookup_ainsert_self _ _ _, ?_⟩
        simp only [rosterNames]
        exact (mem_names_filter session.players name n).mpr ⟨hm, hn⟩
      · exact ⟨s', by rw [alookup_ainsert_ne _ _ _ _ hsid]; exact hs', hm⟩
    · rintro ⟨s', hs', hm⟩
      by_cases hsid : sid2 = sid
      · subst hsid
        rw [alookup_ainsert_self] at hs'
        injection hs' with hs'
        subst hs'
        have hmm := (mem_names_filter session.players name n).mp
          (by simpa [rosterNames] using hm)
        exact ⟨session, hs, hmm.1⟩
      · rw [alookup_ainsert_ne _ _ _ _ hsid] at hs'
        exact ⟨s', hs', hm⟩

theorem leave_preserves (sys : MPState) (name : String) (b : Bool) (sys2 : MPState)
    (hc : Consistent sys) (h : leave_session sys name = some (b, sys2)) :
    Consistent sys2 := by
  unfold leave_session at h
  cases hix : alookup name sys.player_sessions with
  | none =>
      simp only [hix] at h
      injection h with h
      injection h with hb hstate
      exact hstate ▸ hc
  | some sid =>
      simp only [hix] at h
      cases hs : alookup sid sys.active_sessions with
      | none =>
          simp only [hs] at h
          exact absurd h (by simp)
      | some session =>
          simp only [hs] at h
          split_ifs at h with hhost hne hnil
          · injection h with h
            injection h with hb hstate
            rw [← hstate]
            exact update_state_consistent sys name sid _ session hc hix hs
          · injection h with h
            injection h with hb hstate
            rw [← hstate]
            have hempty : ∀ n, n ∈ rosterNames session → n = name := by
              intro n hm
              by_contra hcontra
              have : n ∈ (session.players.filter (fun p => p.name ≠ name)).map MPlayer.name :=
                (mem_names_filter session.players name n).mpr
                  ⟨by simpa [rosterNames] using hm, hcontra⟩
              rw [not_not.mp hne] at this
              simp at this
            exact erase_state_consistent sys name sid session hc hix hs hempty
          · injection h with h
            injection h with hb hstate
            rw [← hstate]
            have hempty : ∀ n, n ∈ rosterNames session → n = name := by
              intro n hm
              by_contra hcontra
              have : n ∈ (session.players.filter (fun p => p.name ≠ name)).map MPlayer.name :=
                (mem_names_filter session.players name n).mpr
                  ⟨by simpa [rosterNames] using hm, hcontra⟩
              rw [hnil] at this
              simp at this
            exact erase_state_consistent sys name sid session hc hix hs hempty
          · injection h with h
            injection h with hb hstate
            rw [← hstate]
            exact update_state_consistent sys name sid session.host_player session hc hix hs

theorem remove_expired_preserves (sys : MPState) (sid : String) (sys2 : MPState)
    (hc : Consistent sys) (h : remove_expired sys sid = some sys2) :
    Consistent sys2 := by
  obtain ⟨hn1, hn2, hiff⟩ := hc
  unfold remove_expired at h
  cases hs : alookup sid sys.active_sessions with
  | none =>
      simp only [hs] at h
      exact absurd h (by simp)
  | some session =>
      simp only [hs] at h
      injection h with h
      rw [← h]
      refine ⟨akeys_aerase_nodup _ _ hn1, akeys_foldl_aerase_nodup _ _ hn2, ?_⟩
      intro n sid2
      rw [alookup_foldl_aerase]
      by_cases hmem : n ∈ session.players.map MPlayer.name
      · rw [if_pos hmem]
        constructor
        · intro he
          exact absurd he (by simp)
        · rintro ⟨s', hs', hm⟩
          by_cases hsid : sid2 = sid
          · subst hsid
            rw [alookup_aerase_self] at hs'
            exact absurd hs' (by simp)
          · rw [alookup_aerase_ne _ _ _ hsid] at hs'
            have e1 := (hiff n sid).mpr ⟨session, hs, hmem⟩
            have e2 := (hiff n sid2).mpr ⟨s', hs', hm⟩
            rw [e1] at e2
            injection e2 with e2
            exact absurd e2.symm hsid
      · rw [if_neg hmem, hiff n sid2]
        constructor
        · rintro ⟨s', hs', hm⟩
          by_cases hsid : sid2 = sid
          · subst hsid
            rw [hs] at hs'
            injection hs' with hs'
            subst hs'
            exact absurd hm hmem
          · exact ⟨s', by rw [alookup_aerase_ne _ _ _ hsid]; exact hs', hm⟩
        · rintro ⟨s', hs', hm⟩
          by_cases hsid : sid2 = sid
          · subst hsid
            rw [alookup_aerase_self] at hs'
            exact absurd hs' (by simp)
          · rw [alookup_aerase_ne _ _ _ hsid] at hs'
            exact ⟨s', hs', hm⟩

theorem remove_all_preserves (sids : List String) :
    ∀ (sys sys2 : MPState), Consistent sys → remove_all sys sids = some sys2 →
      Consistent sys2 := by
  induction sids with
  | nil =>
      intro sys sys2 hc h
      rw [remove_all] at h
      injection h with h
      exact h ▸ hc
  | cons sid rest ih =>
      intro sys sys2 hc h
      rw [remove_all] at h
      cases hr : remove_expired sys sid with
      | none =>
          simp only [hr] at h
          exact absurd h (by simp)
      | some sysm =>
          simp only [hr] at h
          exact ih sysm sys2 (remove_expired_preserves sys sid sysm hc hr) h

theorem cleanup_preserves (sys : MPState) (hours : ℤ) (now : ℚ) (r : ℤ × MPState)
    (hc : Consistent sys) (h : cleanup_expired_sessions sys hours now = some r) :
    Consistent r.2 := by
  unfold cleanup_expired_sessions at h
  dsimp only at h
  cases hr : remove_all sys
      ((sys.active_sessions.filter
        (fun p => now - p.2.created_at > ((hours * 3600 : ℤ) : ℚ))).map Prod.fst) with
  | none =>
      rw [hr] at h
      exact absurd h (by simp)
  | some sysf =>
      rw [hr] at h
      injection h with h
      rw [← h]
      exact remove_all_preserves _ sys sysf hc hr

theorem step_preserves (sys sys2 : MPState) (op : MPOp) (hc : Consistent sys)
    (hg : cleanCreate sys op = true) (h : step sys op = some sys2) :
    Consistent sys2 := by
  cases op with
  | create host mp sid now =>
      simp only [step] at h
      injection h with h
      simp only [cleanCreate, Bool.and_eq_true, Option.isNone_iff_eq_none] at hg
      exact h ▸ create_preserves sys host mp sid now hc hg.1 hg.2
  | join sid p =>
      simp only [step] at h
      injection h with h
      exact h ▸ join_preserves sys sid p hc
  | leave n =>
      simp only [step] at h
      cases hl : leave_session sys n with
      | none =>
          rw [hl] at h
          exact absurd h (by simp)
      | some r =>
          rw [hl] at h
          injection h with h
          exact h ▸ leave_preserves sys n r.1 r.2 hc (by rw [hl])
  | start sid =>
      simp only [step] at h
      injection h with h
      exact h ▸ start_preserves sys sid hc
  | cleanup hours now =>
      simp only [step] at h
      cases hcl : cleanup_expired_sessions sys hours now with
      | none =>
          rw [hcl] at h
          exact absurd h (by simp)
      | some r =>
          rw [hcl] at h
          injection h with h
          exact h ▸ cleanup_preserves sys hours now r hc hcl

theorem run_preserves (ops : List MPOp) :
    ∀ sys sys2 : MPState, Consistent sys → cleanTrace sys ops = true →
      run sys ops = some sys2 → Consistent sys2 := by
  induction ops with
  | nil =>
      intro sys sys2 hc _ h
      rw [run] at h
      injection h with h
      exact h ▸ hc
  | cons op rest ih =>
      intro sys sys2 hc hg h
      rw [run] at h
      rw [cleanTrace] at hg
      cases hstep : step sys op with
      | none =>
          simp only [hstep] at h
          exact absurd h (by simp)
      | some sysm =>
          simp only [hstep] at h hg
          simp only [Bool.and_eq_true] at hg
          exact ih sysm sys2 (step_preserves sys sysm op hc hg.1 hstep) hg.2 h

/-- C10 counterexample: the clean-looking two-operation trace in which the
same host creates two sessions leaves alice on the rosters of both S1 and
S2 (with the player index pointing only at S2), so the claimed invariant
that each player name is on at most one active session's roster is false:
create_session never checks whether the host is already mapped. -/
theorem session_index_cx :
    run emptySystem exDoubleCreate = some exDoubleState ∧
    (∃ s, alookup "S1" exDoubleState.active_sessions = some s ∧
      "alice" ∈ rosterNames s) ∧
    (∃ s, alookup "S2" exDoubleState.active_sessions = some s ∧
      "alice" ∈ rosterNames s) ∧
    "S1" ≠ "S2" := by
  refine ⟨rfl, ⟨_, rfl, ?_⟩, ⟨_, rfl, ?_⟩, by decide⟩ <;> simp [rosterNames]

/-- C10 (amended): along every trace from the empty state in which each
createSession call uses a fresh uuid session id and a host not currently
in the player index (every other operation unconstrained), the reached
state is consistent — both dicts have unique keys and the player index
maps a name to a session id exactly when that session exists and its
roster holds the name — and consequently every player name is on the
roster of at most one active session. -/
theorem session_index_consistent (ops : List MPOp) (sys : MPState)
    (hclean : cleanTrace emptySystem ops = true)
    (hrun : run emptySystem ops = some sys) :
    Consistent sys ∧
    ∀ n sid1 sid2 s1 s2,
      alookup sid1 sys.active_sessions = some s1 →
      alookup sid2 sys.active_sessions = some s2 →
      n ∈ rosterNames s1 → n ∈ rosterNames s2 → sid1 = sid2 := by
  have hc := run_preserves ops emptySystem sys consistent_empty hclean hrun
  refine ⟨hc, ?_⟩
  intro n sid1 sid2 s1 s2 h1 h2 m1 m2
  have e1 := (hc.2.2 n sid1).mpr ⟨s1, h1, m1⟩
  have e2 := (hc.2.2 n sid2).mpr ⟨s2, h2, m2⟩
  exact Option.some.inj (e1.symm.trans e2)

/-- C10 witness: session_index_consistent evaluated on the trace where
alice hosts S1 and bob joins it. -/
theorem session_index_consistent_witness :
    Consistent exTraceState ∧
    ∀ n sid1 sid2 s1 s2,
      alookup sid1 exTraceState.active_sessions = some s1 →
      alookup sid2 exTraceState.active_sessions = some s2 →
      n ∈ rosterNames s1 → n ∈ rosterNames s2 → sid1 = sid2 :=
  session_index_consistent exTrace exTraceState rfl rfl

end MultiplayerSystem
